import Mathlib

/-!
Verification development for the CBRAIN-CAM batch-generation subsystem
(`keras/data_generator.py`): the `DataSet` loader and the `DataGenerator`
batch generator.

Shallow embedding conventions:
* Stored variables of the raw-output file are rectangular 2-D arrays with the
  sample axis trailing; they are modelled as `List (List ℚ)` (outer list =
  first axis, e.g. vertical levels; inner lists = values over samples).
  `np.atleast_2d` is reflected in the representation: a 1-D stored variable
  is a one-row matrix.
* The mean / std statistics files map a variable name to a scalar-or-per-level
  value, modelled as `List ℚ` (a scalar is a singleton list); numpy
  broadcasting of a length-1 statistics array over levels is `bGet`.
* An h5 file is a partial map `String → Option _`; a missing key raises
  `KeyError`, modelled by `Except LoadErr` with `LoadErr.keyError`.
* Machine floats are modelled as exact rationals `ℚ`; the `dtype` cast
  performed by `np.asarray(·, dtype=self.dtype)` in `DataSet` is an explicit
  parameter `cast : ℚ → ℚ` applied elementwise (for a lossless precision it
  is the identity; a narrowing cast such as float64 → float32 is not).
* `int(self.n_samples / batch_size)` is modelled as natural floor division,
  which agrees with Python true-division-then-truncation on the whole
  realistic range of sample counts.
-/

/-- Errors raised during construction: the `assert` on `target_names` in
`DataGenerator.__init__` (line 110) and `KeyError` from an h5 lookup. -/
inductive LoadErr where
  | assertionError : LoadErr
  | keyError : String → LoadErr
deriving DecidableEq, Repr

/-- The value of `__get_features`: a single matrix when `convolution` is off
(`np.concatenate(f_list, axis=1)`), or the pair `[f_2d, f_1d]` when it is on
(`f_2d` is 3-D after `np.stack(..., axis=-1)`). -/
inductive Feats where
  | single : List (List ℚ) → Feats
  | pair : List (List (List ℚ)) → List (List ℚ) → Feats
deriving DecidableEq, Repr

/-- Lookup of `file[v]`: a missing key is a `KeyError` carrying the name. -/
def look {α : Type} (file : String → Option α) (v : String) : Except LoadErr α :=
  match file v with
  | some x => .ok x
  | none => .error (.keyError v)

/-- Number of columns of a (rectangular) matrix: `shape[1]`. -/
def numCols (m : List (List ℚ)) : ℕ :=
  (m.headD []).length

/-- Broadcast access into a statistics value: numpy broadcasts a length-1
array (or scalar) across all levels, otherwise the entry at the level. -/
def bGet (xs : List ℚ) (l : ℕ) : ℚ :=
  if xs.length = 1 then xs.getD 0 0 else xs.getD l 0

/-- Elementwise map over a matrix (used for the `dtype` cast
`np.asarray(f, dtype=self.dtype)`, which preserves shape). -/
def mapMat (cast : ℚ → ℚ) (m : List (List ℚ)) : List (List ℚ) :=
  m.map (List.map cast)

/-- Transpose of a rectangular matrix, `m.T`: row `s` of the result collects
entry `s` of every row of `m`. -/
def transposeM (m : List (List ℚ)) : List (List ℚ) :=
  (List.range (numCols m)).map (fun s => m.map (fun r => r.getD s 0))

/-- One normalized feature variable, sample-major:
`np.atleast_2d(out_file[v][:]).T` followed by
`(f - mean_file[v].value) / std_file[v].value`.
Row `s`, entry `l` is `(raw[l][s] - mean[l]) / std[l]` (statistics broadcast
per level). -/
def normVar (raw : List (List ℚ)) (mv sv : List ℚ) : List (List ℚ) :=
  (List.range (numCols raw)).map (fun s =>
    (List.range raw.length).map (fun l =>
      ((raw.getD l []).getD s 0 - bGet mv l) / bGet sv l))

/-- The loop over `self.feature_names` building `f_list` (shared core of
`DataSet.__get_features` and `DataGenerator.__get_features`, before the
`dtype` cast that only `DataSet` applies). -/
def coreFList (out : String → Option (List (List ℚ)))
    (mean std : String → Option (List ℚ)) :
    List String → Except LoadErr (List (List (List ℚ)))
  | [] => .ok []
  | v :: vs => do
    let raw ← look out v
    let mv ← look mean v
    let sv ← look std v
    let rest ← coreFList out mean std vs
    .ok (normVar raw mv sv :: rest)

/-- `np.concatenate(f_list, axis=1)` on sample-major matrices: row `s` of the
result is the concatenation of row `s` of each matrix. The row count is that
of the first matrix (numpy requires them all equal). -/
def concatCols (fl : List (List (List ℚ))) : List (List ℚ) :=
  (List.range (fl.headD []).length).map (fun s =>
    (fl.map (fun m => m.getD s [])).flatten)

/-- `np.stack(fl, axis=-1)`: entry `[s][z][j]` of the result is `fl[j][s][z]`
(numpy requires all stacked shapes equal; dimensions are read off the first
matrix). -/
def stack3 (fl : List (List (List ℚ))) : List (List (List ℚ)) :=
  (List.range (fl.headD []).length).map (fun s =>
    (List.range (numCols (fl.headD []))).map (fun z =>
      fl.map (fun m => (m.getD s []).getD z 0)))

/-- The tail of `__get_features`: either concatenate everything (convolution
off) or partition by `f.shape[1]` into the leveled group (width > 1, stacked)
and the scalar group (width == 1, concatenated). -/
def assembleFeats (convolution : Bool) (fl : List (List (List ℚ))) : Feats :=
  if convolution then
    .pair (stack3 (fl.filter (fun f => 1 < numCols f)))
      (concatCols (fl.filter (fun f => numCols f = 1)))
  else
    .single (concatCols fl)

/-- `DataGenerator.__get_features` (lines 166-196): look up `TAP` to record
`n_samples = out_file['TAP'].shape[1]`, build the normalized feature list and
assemble it. No `dtype` cast is applied. Returns `(n_samples, features)`. -/
def dgGetFeatures (out : String → Option (List (List ℚ)))
    (mean std : String → Option (List ℚ)) (feature_names : List String)
    (convolution : Bool) : Except LoadErr (ℕ × Feats) := do
  let tap ← look out "TAP"
  let fl ← coreFList out mean std feature_names
  .ok (numCols tap, assembleFeats convolution fl)

/-- `DataSet.__get_features` (lines 45-77): identical to the generator's
version except that each per-variable array is cast to the configured
precision (`np.asarray(f, dtype=self.dtype)`) before being appended. -/
def dsGetFeatures (cast : ℚ → ℚ) (out : String → Option (List (List ℚ)))
    (mean std : String → Option (List ℚ)) (feature_names : List String)
    (convolution : Bool) : Except LoadErr (ℕ × Feats) := do
  let tap ← look out "TAP"
  let fl ← coreFList out mean std feature_names
  .ok (numCols tap, assembleFeats convolution (fl.map (mapMat cast)))

/-- `DataGenerator.__get_targets` (lines 198-206):
`np.concatenate([out_file['SPDT'][:] * 1000., out_file['SPDQ'][:] * 2.5e6], axis=0).T`
with no `dtype` cast. -/
def dgGetTargets (out : String → Option (List (List ℚ))) :
    Except LoadErr (List (List ℚ)) := do
  let t ← look out "SPDT"
  let q ← look out "SPDQ"
  .ok (transposeM (t.map (List.map (· * 1000)) ++ q.map (List.map (· * 2500000))))

/-- `DataSet.__get_targets` (lines 79-87): the same, followed by the
configured-precision cast `np.asarray(targets.T, dtype=self.dtype)`. -/
def dsGetTargets (cast : ℚ → ℚ) (out : String → Option (List (List ℚ))) :
    Except LoadErr (List (List ℚ)) :=
  (dgGetTargets out).map (mapMat cast)

/-- State of a constructed `DataSet` object. -/
structure DataSet where
  features : Feats
  targets : List (List ℚ)
  n_samples : ℕ
  target_names : List String
deriving DecidableEq, Repr

/-- `DataSet.__init__` (lines 14-42): stores settings, then eagerly loads
features (which records `n_samples`) and targets. There is no validation of
`target_names`; `__get_targets` reads the fixed names `SPDT`, `SPDQ`
regardless of the stored pair. -/
def dataSetInit (cast : ℚ → ℚ) (out : String → Option (List (List ℚ)))
    (mean std : String → Option (List ℚ)) (feature_names : List String)
    (target_names : List String) (convolution : Bool) :
    Except LoadErr DataSet := do
  let (n, f) ← dsGetFeatures cast out mean std feature_names convolution
  let t ← dsGetTargets cast out
  .ok { features := f, targets := t, n_samples := n, target_names := target_names }

/-- State of a constructed `DataGenerator` object. -/
structure DataGenerator where
  batch_size : ℕ
  shuffle_mode : String
  n_samples : ℕ
  features : Feats
  targets : List (List ℚ)
  n_batches : ℕ
  idxs : List ℕ
deriving DecidableEq, Repr

/-- `np.arange(0, n_samples, batch_size)`: the multiples of `batch_size`
below `n_samples`; there are `⌈n_samples / batch_size⌉` of them. -/
def arangeStep (n bs : ℕ) : List ℕ :=
  (List.range ((n + bs - 1) / bs)).map (· * bs)

/-- `DataGenerator.__init__` (lines 97-131): the `assert` on `target_names`
runs first; then features and targets are loaded exactly as in `DataSet`
except without the precision cast; `n_batches = int(n_samples / batch_size)`;
the base index set is batch-start offsets in `"batches"` shuffle mode and
`np.arange(n_samples)` otherwise. -/
def dataGeneratorInit (out : String → Option (List (List ℚ)))
    (mean std : String → Option (List ℚ)) (batch_size : ℕ)
    (feature_names : List String) (target_names : List String)
    (shuffle_mode : String) (convolution : Bool) :
    Except LoadErr DataGenerator :=
  if target_names = ["SPDT", "SPDQ"] then do
    let (n, f) ← dgGetFeatures out mean std feature_names convolution
    let t ← dgGetTargets out
    .ok { batch_size := batch_size, shuffle_mode := shuffle_mode,
          n_samples := n, features := f, targets := t,
          n_batches := n / batch_size,
          idxs := if shuffle_mode = "batches" then arangeStep n batch_size
                  else List.range n }
  else
    .error .assertionError

/-- Python slice `xs[b : b + len]` (clamped at the end of the list). -/
def sliceL {α : Type} (xs : List α) (b len : ℕ) : List α :=
  (xs.drop b).take len

/-- Numpy fancy indexing `xs[js]` (all indices are in range in the code). -/
def gatherL {α : Type} (xs : List α) (d : α) (js : List ℕ) : List α :=
  js.map (fun j => xs.getD j d)

/-- The batch index list of the non-`"batches"` branch of `generate`
(lines 153-154): `[self.idxs[k] for k in self.idxs[i*bs : (i+1)*bs]]`.
Note it reads `self.idxs` twice and never the shuffled copy `gen_idxs`. -/
def batchIdxNB (g : DataGenerator) (i : ℕ) : List ℕ :=
  (sliceL g.idxs (i * g.batch_size) g.batch_size).map (fun k => g.idxs.getD k 0)

/-- The sample indices that make up the `i`-th yielded batch of one
`generate` invocation whose (possibly shuffled) index copy is `gen_idxs`.
In `"batches"` mode the slice `features[b : b + batch_size]` touches rows
`b, b+1, ..., min(b + batch_size, n_samples) - 1`; otherwise the rows are
gathered at `batchIdxNB`. -/
def batchSampleIdxs (g : DataGenerator) (gen_idxs : List ℕ) (i : ℕ) : List ℕ :=
  if g.shuffle_mode = "batches" then
    let b := gen_idxs.getD i 0
    List.range' b (min g.batch_size (g.n_samples - b))
  else
    batchIdxNB g i

/-- Row selection applied to one array component for the `i`-th batch:
contiguous slice at `gen_idxs[i]` in `"batches"` mode, gather at
`batchIdxNB` otherwise. -/
def selectRows {α : Type} (g : DataGenerator) (gen_idxs : List ℕ) (i : ℕ)
    (d : α) (xs : List α) : List α :=
  if g.shuffle_mode = "batches" then
    sliceL xs (gen_idxs.getD i 0) g.batch_size
  else
    gatherL xs d (batchIdxNB g i)

/-- The `x` of the `i`-th batch: each feature component is row-selected. -/
def batchX (g : DataGenerator) (gen_idxs : List ℕ) (i : ℕ) : Feats :=
  match g.features with
  | .single m => .single (selectRows g gen_idxs i [] m)
  | .pair a b => .pair (selectRows g gen_idxs i [] a) (selectRows g gen_idxs i [] b)

/-- The `(x, y)` pair yielded at 0-based step `k` of one `generate`
invocation with index copy `gen_idxs`. The `while True` loop around
`for i in range(self.n_batches)` runs the body at `i = k % n_batches`
(meaningful for `n_batches > 0`; for `n_batches = 0` the loop never yields).
`gen_idxs` is fixed for the whole invocation: it is drawn (copied, and
shuffled when `shuffle=True`) once, before the loop starts. -/
def nthYield (g : DataGenerator) (gen_idxs : List ℕ) (k : ℕ) :
    Feats × List (List ℚ) :=
  (batchX g gen_idxs (k % g.n_batches),
   selectRows g gen_idxs (k % g.n_batches) [] g.targets)

deriving instance DecidableEq for Except

/-! ### Concrete fixtures used by witnesses and counterexamples -/

/-- A small raw-output file: one leveled bookkeeping variable `TAP`, one
feature `X`, and the two targets, each with four samples. -/
def outW : String → Option (List (List ℚ)) := fun v =>
  if v = "TAP" then some [[0, 0, 0, 0]]
  else if v = "X" then some [[1, 2, 3, 4]]
  else if v = "SPDT" then some [[1, 0, 0, 0]]
  else if v = "SPDQ" then some [[0, 1, 0, 0]]
  else none

/-- Mean file for `outW`. -/
def meanW : String → Option (List ℚ) := fun v =>
  if v = "X" then some [0] else none

/-- Std file for `outW`. -/
def stdW : String → Option (List ℚ) := fun v =>
  if v = "X" then some [1] else none

/-- The generator built from `outW` with batch size 2 in `"batches"` mode. -/
def genW : DataGenerator :=
  { batch_size := 2, shuffle_mode := "batches", n_samples := 4,
    features := .single [[1], [2], [3], [4]],
    targets := [[1000, 0], [0, 2500000], [0, 0], [0, 0]],
    n_batches := 2, idxs := [0, 2] }

/-- The generator built from `outW` with batch size 2 in `"full"` (i.e.
non-`"batches"`) shuffle mode. -/
def genF : DataGenerator :=
  { batch_size := 2, shuffle_mode := "full", n_samples := 4,
    features := .single [[1], [2], [3], [4]],
    targets := [[1000, 0], [0, 2500000], [0, 0], [0, 0]],
    n_batches := 2, idxs := [0, 1, 2, 3] }

/-! ### Helper lemmas about lists -/

/-- Reading a mapped list inside its bounds maps the entry. -/
theorem getD_map_lt {α β : Type} (f : α → β) (l : List α) (s : ℕ) (d : β)
    (d0 : α) (h : s < l.length) :
    (l.map f).getD s d = f (l.getD s d0) := by
  have h2 : s < (l.map f).length := by simpa using h
  rw [List.getD_eq_getElem _ _ h2, List.getD_eq_getElem _ _ h, List.getElem_map]

/-- Reading `(List.range n).map f` inside its bounds yields `f s`. -/
theorem getD_range_map {α : Type} (f : ℕ → α) (n s : ℕ) (d : α) (h : s < n) :
    ((List.range n).map f).getD s d = f s := by
  rw [getD_map_lt f _ s d 0 (by simpa using h),
    List.getD_eq_getElem _ _ (by simpa using h), List.getElem_range]

/-- A within-bounds Python slice of `np.arange(n)` is the contiguous range. -/
theorem sliceL_range (n a b : ℕ) (h : a + b ≤ n) :
    sliceL (List.range n) a b = List.range' a b := by
  apply List.ext_getElem
  · simp [sliceL]; omega
  · intro i h1 h2
    simp only [sliceL, List.getElem_take, List.getElem_drop, List.getElem_range,
      List.getElem_range'_1]

/-- Members of `np.arange(0, n, bs)` are the multiples of `bs` below `n`. -/
theorem mem_arangeStep {b n bs : ℕ} (hbs : 0 < bs) (h : b ∈ arangeStep n bs) :
    bs ∣ b ∧ b < n := by
  simp only [arangeStep, List.mem_map, List.mem_range] at h
  obtain ⟨k, hk, rfl⟩ := h
  refine ⟨⟨k, (mul_comm k bs)⟩, ?_⟩
  have h1 : k + 1 ≤ (n + bs - 1) / bs := hk
  have h2 : (k + 1) * bs ≤ n + bs - 1 := (Nat.le_div_iff_mul_le hbs).mp h1
  have h3 : k * bs + bs ≤ n + bs - 1 := by
    calc k * bs + bs = (k + 1) * bs := by ring
    _ ≤ n + bs - 1 := h2
  generalize hm : k * bs = m at h3 ⊢
  omega

/-- Entry `i` of `np.arange(0, n, bs)`, inside its bounds. -/
theorem arangeStep_getD {n bs i : ℕ} (h : i < (n + bs - 1) / bs) :
    (arangeStep n bs).getD i 0 = i * bs := by
  unfold arangeStep
  rw [getD_range_map _ _ _ _ h]

/-- `n_batches` never exceeds the length of the `"batches"`-mode index set. -/
theorem nBatches_le_arange_len (n bs : ℕ) (hbs : 0 < bs) :
    n / bs ≤ (n + bs - 1) / bs :=
  Nat.div_le_div_right (by omega)

/-- The cast with nothing to lose: the identity on exact values. -/
theorem mapMat_id (m : List (List ℚ)) : mapMat (fun q => q) m = m := by
  simp [mapMat, List.map_id']

/-! ### C8 -/

/-- C8: within a single `generate()` invocation the yielded sequence is
periodic with period `n_batches`: the `(k + n_batches)`-th `(x, y)` pair
equals the `k`-th. The index copy `gen_idxs` is drawn once before the loop
and reused by every cycle, with no re-deriving or re-shuffling. -/
theorem C8_generate_periodic (g : DataGenerator) (gen_idxs : List ℕ) (k : ℕ)
    (_hpos : 0 < g.n_batches) :
    nthYield g gen_idxs (k + g.n_batches) = nthYield g gen_idxs k := by
  unfold nthYield
  rw [Nat.add_mod_right]

/-- Witness for C8 on the concrete generator `genW`. -/
theorem C8_generate_periodic_witness :
    0 < genW.n_batches ∧
    nthYield genW [2, 0] (1 + genW.n_batches) = nthYield genW [2, 0] 1 :=
  ⟨by decide, C8_generate_periodic genW [2, 0] 1 (by decide)⟩

/-! ### C4 -/

/-- In the non-`"batches"` branch the batch index list at position `i` is
the unshuffled contiguous block, whatever was drawn. -/
theorem batchIdxNB_eq (g : DataGenerator) (i : ℕ)
    (hidxs : g.idxs = List.range g.n_samples)
    (hnb : g.n_batches = g.n_samples / g.batch_size)
    (hi : i < g.n_batches) :
    batchIdxNB g i = List.range' (i * g.batch_size) g.batch_size := by
  have hbs : 0 < g.batch_size := by
    rcases Nat.eq_zero_or_pos g.batch_size with h0 | h0
    · rw [hnb, h0, Nat.div_zero] at hi; omega
    · exact h0
  have hle : (i + 1) * g.batch_size ≤ g.n_samples :=
    (Nat.le_div_iff_mul_le hbs).mp (by rw [hnb] at hi; omega)
  rw [batchIdxNB, hidxs, sliceL_range _ _ _ (by nlinarith [hle])]
  have hmem : ∀ j ∈ List.range' (i * g.batch_size) g.batch_size,
      (List.range g.n_samples).getD j 0 = j := by
    intro j hj
    rw [List.mem_range'_1] at hj
    have hjn : j < g.n_samples := by nlinarith [hle, hj.2]
    rw [List.getD_eq_getElem _ _ (by simpa using hjn), List.getElem_range]
  rw [List.map_congr_left hmem, List.map_id']

/-- C4: in the non-`"batches"` shuffle mode the yields are independent of the
drawn index copy (hence of the `shuffle` argument): batch position `i` always
holds exactly samples `i*batch_size .. (i+1)*batch_size - 1` in increasing
on-disk order, because `generate` computes `batch_idx` from the unshuffled
`self.idxs` instead of the permuted copy `gen_idxs`. -/
theorem C4_shuffle_has_no_effect (g : DataGenerator) (gen_idxs : List ℕ)
    (hmode : g.shuffle_mode ≠ "batches")
    (hidxs : g.idxs = List.range g.n_samples)
    (hnb : g.n_batches = g.n_samples / g.batch_size) :
    (∀ i, i < g.n_batches →
      batchSampleIdxs g gen_idxs i = List.range' (i * g.batch_size) g.batch_size) ∧
    (∀ gen2 k, nthYield g gen_idxs k = nthYield g gen2 k) := by
  constructor
  · intro i hi
    rw [batchSampleIdxs, if_neg hmode]
    exact batchIdxNB_eq g i hidxs hnb hi
  · intro gen2 k
    unfold nthYield batchX selectRows
    cases g.features <;> simp [hmode]

/-- Witness for C4 on the concrete non-`"batches"` generator `genF`. -/
theorem C4_shuffle_has_no_effect_witness :
    (genF.shuffle_mode ≠ "batches" ∧ genF.idxs = List.range genF.n_samples ∧
      genF.n_batches = genF.n_samples / genF.batch_size) ∧
    ((∀ i, i < genF.n_batches →
      batchSampleIdxs genF [2, 3, 0, 1] i
        = List.range' (i * genF.batch_size) genF.batch_size) ∧
    (∀ gen2 k, nthYield genF [2, 3, 0, 1] k = nthYield genF gen2 k)) :=
  ⟨⟨by decide, by decide, by decide⟩,
    C4_shuffle_has_no_effect genF [2, 3, 0, 1] (by decide) (by decide) (by decide)⟩

/-! ### C10 -/

/-- C10: both constructors derive `n_samples` from the shape of the
hard-coded variable `TAP`, so construction fails with a `KeyError` on `TAP`
whenever `TAP` is absent from the raw-output source, even though `TAP` is not
among the requested feature names and every requested feature, its
statistics, and both targets are present. -/
theorem C10_tap_required (cast : ℚ → ℚ)
    (out : String → Option (List (List ℚ))) (mean std : String → Option (List ℚ))
    (feature_names target_names : List String) (bs : ℕ) (mode : String)
    (conv : Bool)
    (htap : out "TAP" = none)
    (_hnotin : "TAP" ∉ feature_names)
    (_hfeat : ∀ v ∈ feature_names,
      (out v).isSome ∧ (mean v).isSome ∧ (std v).isSome)
    (_hT : (out "SPDT").isSome) (_hQ : (out "SPDQ").isSome) :
    dataSetInit cast out mean std feature_names target_names conv
      = .error (.keyError "TAP") ∧
    dataGeneratorInit out mean std bs feature_names ["SPDT", "SPDQ"] mode conv
      = .error (.keyError "TAP") := by
  constructor
  · simp [dataSetInit, dsGetFeatures, look, htap, Bind.bind, Except.bind]
  · simp [dataGeneratorInit, dgGetFeatures, look, htap, Bind.bind, Except.bind]

/-- A raw-output file lacking `TAP` but holding everything else requested. -/
def outNoTap : String → Option (List (List ℚ)) := fun v =>
  if v = "X" then some [[1, 2]]
  else if v = "SPDT" then some [[1, 0]]
  else if v = "SPDQ" then some [[0, 1]]
  else none

/-- Witness for C10: the concrete file `outNoTap` with feature list `["X"]`. -/
theorem C10_tap_required_witness :
    (outNoTap "TAP" = none ∧ "TAP" ∉ ["X"] ∧
      (∀ v ∈ ["X"], (outNoTap v).isSome ∧ (meanW v).isSome ∧ (stdW v).isSome) ∧
      (outNoTap "SPDT").isSome ∧ (outNoTap "SPDQ").isSome) ∧
    (dataSetInit (fun q => q) outNoTap meanW stdW ["X"] ["SPDT", "SPDQ"] false
      = .error (.keyError "TAP") ∧
    dataGeneratorInit outNoTap meanW stdW 1 ["X"] ["SPDT", "SPDQ"] "batches" false
      = .error (.keyError "TAP")) :=
  ⟨⟨by decide, by decide, by decide, by decide, by decide⟩,
    C10_tap_required (fun q => q) outNoTap meanW stdW ["X"] ["SPDT", "SPDQ"] 1
      "batches" false (by decide) (by decide) (by decide) (by decide) (by decide)⟩

/-! ### C5 -/

/-- C5: the target matrix is made by reading the two fixed target variables
in fixed order, multiplying the heating tendency `SPDT` by `1000` and the
moistening tendency `SPDQ` by `2.5e6`, concatenating along the first axis and
transposing so sample leads; in particular, for per-sample (single-row)
target variables, `target[:, 0] = raw_heating * 1000` and
`target[:, 1] = raw_moistening * 2.5e6` at every sample. The `DataSet`
variant additionally applies the configured-precision cast to the result. -/
theorem C5_target_scaling (out : String → Option (List (List ℚ)))
    (tr qr : List ℚ)
    (hT : out "SPDT" = some [tr]) (hQ : out "SPDQ" = some [qr])
    (hlen : qr.length = tr.length) :
    dgGetTargets out
      = .ok (transposeM ([tr.map (· * 1000)] ++ [qr.map (· * 2500000)])) ∧
    (∀ cast, dsGetTargets cast out
      = .ok (mapMat cast
          (transposeM ([tr.map (· * 1000)] ++ [qr.map (· * 2500000)])))) ∧
    (transposeM ([tr.map (· * 1000)] ++ [qr.map (· * 2500000)])).length
      = tr.length ∧
    (∀ s, s < tr.length →
      ((transposeM ([tr.map (· * 1000)] ++ [qr.map (· * 2500000)])).getD s []).getD 0 0
          = tr.getD s 0 * 1000 ∧
      ((transposeM ([tr.map (· * 1000)] ++ [qr.map (· * 2500000)])).getD s []).getD 1 0
          = qr.getD s 0 * 2500000) := by
  have hval : dgGetTargets out
      = .ok (transposeM ([tr.map (· * 1000)] ++ [qr.map (· * 2500000)])) := by
    simp [dgGetTargets, look, hT, hQ, Bind.bind, Except.bind]
  refine ⟨hval, ?_, ?_, ?_⟩
  · intro cast
    simp [dsGetTargets, hval, Except.map]
  · simp [transposeM, numCols]
  · intro s hs
    have hcols : numCols ([tr.map (· * 1000)] ++ [qr.map (· * 2500000)])
        = tr.length := by
      simp [numCols]
    have hrow : (transposeM ([tr.map (· * 1000)] ++ [qr.map (· * 2500000)])).getD s []
        = [(tr.map (· * 1000)).getD s 0, (qr.map (· * 2500000)).getD s 0] := by
      unfold transposeM
      rw [hcols, getD_range_map _ _ _ _ hs]
      simp
    rw [hrow]
    constructor
    · simp only [List.getD_cons_zero]
      exact getD_map_lt (· * 1000) tr s 0 0 hs
    · simp only [List.getD_cons_succ, List.getD_cons_zero]
      exact getD_map_lt (· * 2500000) qr s 0 0 (by omega)

/-- Witness for C5 on the concrete file `outW`. -/
theorem C5_target_scaling_witness :
    (outW "SPDT" = some [[1, 0, 0, 0]] ∧ outW "SPDQ" = some [[0, 1, 0, 0]] ∧
      ([(0 : ℚ), 1, 0, 0]).length = ([(1 : ℚ), 0, 0, 0]).length) ∧
    (dgGetTargets outW
      = .ok (transposeM ([([(1 : ℚ), 0, 0, 0]).map (· * 1000)]
          ++ [([(0 : ℚ), 1, 0, 0]).map (· * 2500000)])) ∧
    (∀ cast, dsGetTargets cast outW
      = .ok (mapMat cast
          (transposeM ([([(1 : ℚ), 0, 0, 0]).map (· * 1000)]
            ++ [([(0 : ℚ), 1, 0, 0]).map (· * 2500000)])))) ∧
    (transposeM ([([(1 : ℚ), 0, 0, 0]).map (· * 1000)]
        ++ [([(0 : ℚ), 1, 0, 0]).map (· * 2500000)])).length
      = ([(1 : ℚ), 0, 0, 0]).length ∧
    (∀ s, s < ([(1 : ℚ), 0, 0, 0]).length →
      ((transposeM ([([(1 : ℚ), 0, 0, 0]).map (· * 1000)]
          ++ [([(0 : ℚ), 1, 0, 0]).map (· * 2500000)])).getD s []).getD 0 0
          = ([(1 : ℚ), 0, 0, 0]).getD s 0 * 1000 ∧
      ((transposeM ([([(1 : ℚ), 0, 0, 0]).map (· * 1000)]
          ++ [([(0 : ℚ), 1, 0, 0]).map (· * 2500000)])).getD s []).getD 1 0
          = ([(0 : ℚ), 1, 0, 0]).getD s 0 * 2500000)) :=
  ⟨⟨by simp +decide [outW], by simp +decide [outW], by decide⟩,
    C5_target_scaling outW [1, 0, 0, 0] [0, 1, 0, 0]
      (by simp +decide [outW]) (by simp +decide [outW]) (by decide)⟩

/-! ### C9 -/

/-- Loading distributes over appending feature-name lists. -/
theorem coreFList_append (out : String → Option (List (List ℚ)))
    (mean std : String → Option (List ℚ)) (ns1 ns2 : List String)
    (fl1 fl2 : List (List (List ℚ)))
    (h1 : coreFList out mean std ns1 = .ok fl1)
    (h2 : coreFList out mean std ns2 = .ok fl2) :
    coreFList out mean std (ns1 ++ ns2) = .ok (fl1 ++ fl2) := by
  induction ns1 generalizing fl1 with
  | nil =>
    simp only [coreFList] at h1
    obtain rfl : ([] : List (List (List ℚ))) = fl1 := by simpa using h1
    simpa using h2
  | cons v vs ih =>
    rw [List.cons_append]
    simp only [coreFList, Bind.bind, Except.bind] at h1 ⊢
    cases hv : look out v with
    | error e => rw [hv] at h1; simp at h1
    | ok raw =>
      rw [hv] at h1
      cases hm : look mean v with
      | error e => rw [hm] at h1; simp at h1
      | ok mv =>
        rw [hm] at h1
        cases hs : look std v with
        | error e => rw [hs] at h1; simp at h1
        | ok sv =>
          rw [hs] at h1
          cases hr : coreFList out mean std vs with
          | error e => rw [hr] at h1; simp at h1
          | ok rest =>
            rw [hr] at h1
            obtain rfl : normVar raw mv sv :: rest = fl1 := by simpa using h1
            rw [ih rest hr]
            simp

/-- Row `s` of the concatenated feature matrix, as the code builds it:
row `s` of every loaded per-variable array, flattened in input order. -/
def rowAt (fl : List (List (List ℚ))) (s : ℕ) : List ℚ :=
  (fl.map (fun m => m.getD s [])).flatten

/-- C9: for every requested feature-variable name `v`, the loaded feature
matrix carries, in the segment belonging to `v` of each sample row `s`, the
values `(raw[l][s] - mean[l]) / std[l]` for every level `l`: the raw variable
is read sample-trailing and used sample-leading (transposed), and the mean
and standard deviation are looked up under the same name `v` and broadcast
per level. -/
theorem C9_feature_normalization (out : String → Option (List (List ℚ)))
    (mean std : String → Option (List ℚ)) (ns1 ns2 : List String) (v : String)
    (raw : List (List ℚ)) (mv sv : List ℚ) (fl1 fl2 : List (List (List ℚ)))
    (hv : out v = some raw) (hm : mean v = some mv) (hs : std v = some sv)
    (h1 : coreFList out mean std ns1 = .ok fl1)
    (h2 : coreFList out mean std ns2 = .ok fl2) :
    coreFList out mean std (ns1 ++ v :: ns2)
      = .ok (fl1 ++ normVar raw mv sv :: fl2) ∧
    (∀ s, s < numCols raw →
      rowAt (fl1 ++ normVar raw mv sv :: fl2) s
        = rowAt fl1 s
          ++ ((List.range raw.length).map (fun l =>
                ((raw.getD l []).getD s 0 - bGet mv l) / bGet sv l))
          ++ rowAt fl2 s) ∧
    (∀ s, s < ((fl1 ++ normVar raw mv sv :: fl2).headD []).length →
      (concatCols (fl1 ++ normVar raw mv sv :: fl2)).getD s []
        = rowAt (fl1 ++ normVar raw mv sv :: fl2) s) := by
  refine ⟨?_, ?_, ?_⟩
  · apply coreFList_append out mean std ns1 (v :: ns2) fl1 _ h1
    simp [coreFList, look, hv, hm, hs, h2, Bind.bind, Except.bind]
  · intro s hsCols
    have hrow : (normVar raw mv sv).getD s []
        = (List.range raw.length).map (fun l =>
            ((raw.getD l []).getD s 0 - bGet mv l) / bGet sv l) := by
      unfold normVar
      exact getD_range_map _ _ _ _ hsCols
    unfold rowAt
    rw [List.map_append, List.flatten_append, List.map_cons, List.flatten_cons,
      hrow, List.append_assoc]
  · intro s hsLen
    unfold concatCols
    rw [getD_range_map _ _ _ _ hsLen]
    rfl

/-- Witness for C9: the single feature `X` of the concrete file `outW`. -/
theorem C9_feature_normalization_witness :
    (outW "X" = some [[1, 2, 3, 4]] ∧ meanW "X" = some [0] ∧
      stdW "X" = some [1] ∧
      coreFList outW meanW stdW [] = .ok [] ∧
      coreFList outW meanW stdW [] = .ok []) ∧
    (coreFList outW meanW stdW ([] ++ "X" :: [])
      = .ok ([] ++ normVar [[1, 2, 3, 4]] [0] [1] :: []) ∧
    (∀ s, s < numCols [[1, 2, 3, 4]] →
      rowAt ([] ++ normVar [[1, 2, 3, 4]] [0] [1] :: []) s
        = rowAt [] s
          ++ ((List.range ([[(1 : ℚ), 2, 3, 4]]).length).map (fun l =>
                ((([[(1 : ℚ), 2, 3, 4]]).getD l []).getD s 0 - bGet [0] l)
                  / bGet [1] l))
          ++ rowAt [] s) ∧
    (∀ s, s < (([] ++ normVar [[1, 2, 3, 4]] [0] [1] :: []).headD []).length →
      (concatCols ([] ++ normVar [[1, 2, 3, 4]] [0] [1] :: [])).getD s []
        = rowAt ([] ++ normVar [[1, 2, 3, 4]] [0] [1] :: []) s)) :=
  ⟨⟨rfl, rfl, rfl, rfl, rfl⟩,
    C9_feature_normalization outW meanW stdW [] [] "X" [[1, 2, 3, 4]] [0] [1]
      [] [] rfl rfl rfl rfl rfl⟩

/-! ### C1 -/

/-- The `DataSet` object that construction with the unsupported target pair
`["FOO"]` actually returns on the file `outW`. -/
def dsFoo : DataSet :=
  { features := .single [[1], [2], [3], [4]],
    targets := [[1000, 0], [0, 2500000], [0, 0], [0, 0]],
    n_samples := 4, target_names := ["FOO"] }

/-- Counterexample to C1 as stated: constructing `DataSet` with the
target pair `["FOO"]`, different from the fixed `["SPDT", "SPDQ"]`, does NOT
fail — it returns a fully built object, because `DataSet.__init__` has no
assertion and `__get_targets` reads the two fixed names regardless. Only
`DataGenerator.__init__` validates the pair. -/
theorem C1_cex :
    dataSetInit (fun q => q) outW meanW stdW ["X"] ["FOO"] false = .ok dsFoo ∧
    ["FOO"] ≠ ["SPDT", "SPDQ"] := by
  constructor
  · norm_num +decide [dataSetInit, dsGetFeatures, dsGetTargets, dgGetTargets,
      look, outW, meanW, stdW, coreFList, normVar, numCols, bGet, concatCols,
      assembleFeats, transposeM, mapMat, dsFoo, List.range_succ, Bind.bind,
      Except.bind, Except.map]
  · decide

/-- C1 (amended): only the batch generator validates the target pair — for
any pair other than `["SPDT", "SPDQ"]`, `DataGenerator` construction fails
with the assertion (configuration) error and returns no object, while
`DataSet` construction ignores the supplied pair entirely: its features,
targets and sample count are the same as with the supported pair. -/
theorem C1_amended (cast : ℚ → ℚ) (out : String → Option (List (List ℚ)))
    (mean std : String → Option (List ℚ)) (bs : ℕ)
    (names tnames : List String) (mode : String) (conv : Bool)
    (h : tnames ≠ ["SPDT", "SPDQ"]) :
    dataGeneratorInit out mean std bs names tnames mode conv
      = .error .assertionError ∧
    (dataSetInit cast out mean std names tnames conv).map
        (fun d => (d.features, d.targets, d.n_samples))
      = (dataSetInit cast out mean std names ["SPDT", "SPDQ"] conv).map
        (fun d => (d.features, d.targets, d.n_samples)) := by
  constructor
  · unfold dataGeneratorInit
    rw [if_neg h]
  · unfold dataSetInit
    cases hf : dsGetFeatures cast out mean std names conv with
    | error e => simp [Bind.bind, Except.bind, Except.map]
    | ok p =>
      obtain ⟨n, f⟩ := p
      cases ht : dsGetTargets cast out with
      | error e => simp [Bind.bind, Except.bind, Except.map]
      | ok t => simp [Bind.bind, Except.bind, Except.map]

/-- Witness for C1 (amended) at the concrete pair `["FOO"]` on `outW`. -/
theorem C1_amended_witness :
    ["FOO"] ≠ ["SPDT", "SPDQ"] ∧
    (dataGeneratorInit outW meanW stdW 2 ["X"] ["FOO"] "batches" false
        = .error .assertionError ∧
      (dataSetInit (fun q => q) outW meanW stdW ["X"] ["FOO"] false).map
          (fun d => (d.features, d.targets, d.n_samples))
        = (dataSetInit (fun q => q) outW meanW stdW ["X"]
              ["SPDT", "SPDQ"] false).map
          (fun d => (d.features, d.targets, d.n_samples))) :=
  ⟨by decide,
    C1_amended (fun q => q) outW meanW stdW 2 ["X"] ["FOO"] "batches" false
      (by decide)⟩

/-! ### C2 -/

/-- A concrete lossy precision cast: round down to an integer. It stands in
for a narrowing dtype conversion (such as float64 → float32) applied to a
value the narrow type cannot represent; any elementwise cast that moves some
value exhibits the same discrepancy. -/
def floorCast (q : ℚ) : ℚ := (⌊q⌋ : ℚ)

/-- A raw-output file whose feature `X` holds the value `1/2`, which
`floorCast` cannot represent. -/
def outC : String → Option (List (List ℚ)) := fun v =>
  if v = "TAP" then some [[0]]
  else if v = "X" then some [[1/2]]
  else if v = "SPDT" then some [[0]]
  else if v = "SPDQ" then some [[0]]
  else none

/-- Mean file for `outC`. -/
def meanC : String → Option (List ℚ) := fun v =>
  if v = "X" then some [0] else none

/-- Std file for `outC`. -/
def stdC : String → Option (List ℚ) := fun v =>
  if v = "X" then some [1] else none

/-- Counterexample to C2 as stated: for the same input configuration the
feature arrays differ between the two classes as soon as the configured
precision cast is not the identity, because `DataSet.__get_features` casts
each per-variable array (`np.asarray(f, dtype=self.dtype)`) while
`DataGenerator.__get_features` never casts. -/
theorem C2_cex :
    dsGetFeatures floorCast outC meanC stdC ["X"] false
      ≠ dgGetFeatures outC meanC stdC ["X"] false := by
  norm_num +decide [dsGetFeatures, dgGetFeatures, floorCast, look, outC,
    meanC, stdC, coreFList, normVar, numCols, bGet, concatCols, assembleFeats,
    mapMat, List.range_succ, Bind.bind, Except.bind]

/-- C2 (amended): the combination of feature normalization, target scaling
and assembly is identical in the two classes; the only difference is that
`DataSet` applies the configured-precision cast and `DataGenerator` does
not, so with a lossless (identity) cast the arrays produced at construction
coincide exactly, for every configuration including the convolution flag. -/
theorem C2_amended (out : String → Option (List (List ℚ)))
    (mean std : String → Option (List ℚ)) (names : List String) (conv : Bool) :
    dsGetFeatures (fun q => q) out mean std names conv
      = dgGetFeatures out mean std names conv ∧
    dsGetTargets (fun q => q) out = dgGetTargets out := by
  have hid : ∀ fl : List (List (List ℚ)), fl.map (mapMat (fun q => q)) = fl := by
    intro fl
    induction fl with
    | nil => rfl
    | cons m t ih => simp [mapMat_id, ih]
  constructor
  · unfold dsGetFeatures dgGetFeatures
    cases look out "TAP" with
    | error e => simp [Bind.bind, Except.bind]
    | ok tap =>
      cases coreFList out mean std names with
      | error e => simp [Bind.bind, Except.bind]
      | ok fl => simp [Bind.bind, Except.bind, hid]
  · unfold dsGetTargets
    cases dgGetTargets out with
    | error e => simp [Except.map]
    | ok t => simp [Except.map, mapMat_id]

/-! ### C6 -/

/-- Field equations every successfully constructed generator satisfies. -/
theorem init_fields (out : String → Option (List (List ℚ)))
    (mean std : String → Option (List ℚ)) (bs : ℕ)
    (names tnames : List String) (mode : String) (conv : Bool)
    (g : DataGenerator)
    (h : dataGeneratorInit out mean std bs names tnames mode conv = .ok g) :
    g.batch_size = bs ∧ g.shuffle_mode = mode ∧
    g.n_batches = g.n_samples / bs ∧
    g.idxs = (if mode = "batches" then arangeStep g.n_samples bs
              else List.range g.n_samples) := by
  unfold dataGeneratorInit at h
  by_cases htn : tnames = ["SPDT", "SPDQ"]
  · rw [if_pos htn] at h
    cases hf : dgGetFeatures out mean std names conv with
    | error e => rw [hf] at h; simp [Bind.bind, Except.bind] at h
    | ok p =>
      rw [hf] at h
      obtain ⟨n, f⟩ := p
      cases ht : dgGetTargets out with
      | error e => rw [ht] at h; simp [Bind.bind, Except.bind] at h
      | ok t =>
        rw [ht] at h
        simp only [Bind.bind, Except.bind, Except.ok.injEq] at h
        subst h
        simp
  · rw [if_neg htn] at h
    simp at h

/-- Length of `np.arange(0, n, bs)`. -/
theorem arangeStep_length (n bs : ℕ) :
    (arangeStep n bs).length = (n + bs - 1) / bs := by
  simp [arangeStep]

/-- Any sample index reached by a batch of a constructed generator is below
`n_batches * batch_size`, provided the draw is either irrelevant (the
non-`"batches"` branch ignores it) or unshuffled. -/
theorem yield_idx_lt (g : DataGenerator) (gen_idxs : List ℕ) (i j : ℕ)
    (hnbf : g.n_batches = g.n_samples / g.batch_size)
    (hix : g.idxs = (if g.shuffle_mode = "batches"
        then arangeStep g.n_samples g.batch_size
        else List.range g.n_samples))
    (hbs : 0 < g.batch_size) (hi : i < g.n_batches)
    (hcase : g.shuffle_mode ≠ "batches" ∨ gen_idxs = g.idxs)
    (hj : j ∈ batchSampleIdxs g gen_idxs i) :
    j < g.n_batches * g.batch_size := by
  by_cases hmode : g.shuffle_mode = "batches"
  · have hgen : gen_idxs = g.idxs := by
      rcases hcase with hc | hc
      · exact absurd hmode hc
      · exact hc
    rw [hix, if_pos hmode] at hgen
    rw [batchSampleIdxs, if_pos hmode, hgen] at hj
    have h1 : i < g.n_samples / g.batch_size := by rw [← hnbf]; exact hi
    have hceil : i < (g.n_samples + g.batch_size - 1) / g.batch_size :=
      Nat.lt_of_lt_of_le h1 (nBatches_le_arange_len _ _ hbs)
    rw [arangeStep_getD hceil] at hj
    rw [List.mem_range'_1] at hj
    have hj2 : j < i * g.batch_size + g.batch_size := by
      have := hj.2
      omega
    calc j < i * g.batch_size + g.batch_size := hj2
    _ = (i + 1) * g.batch_size := by ring
    _ ≤ g.n_batches * g.batch_size := Nat.mul_le_mul_right _ (by omega)
  · rw [batchSampleIdxs, if_neg hmode] at hj
    have hixr : g.idxs = List.range g.n_samples := by rw [hix, if_neg hmode]
    rw [batchIdxNB_eq g i hixr hnbf hi] at hj
    rw [List.mem_range'_1] at hj
    calc j < i * g.batch_size + g.batch_size := hj.2
    _ = (i + 1) * g.batch_size := by ring
    _ ≤ g.n_batches * g.batch_size := Nat.mul_le_mul_right _ (by omega)

/-- A raw-output file with seven samples (so batch size 3 leaves one
remainder sample). -/
def out7 : String → Option (List (List ℚ)) := fun v =>
  if v = "TAP" then some [[0, 0, 0, 0, 0, 0, 0]]
  else if v = "X" then some [[1, 2, 3, 4, 5, 6, 7]]
  else if v = "SPDT" then some [[0, 0, 0, 0, 0, 0, 0]]
  else if v = "SPDQ" then some [[0, 0, 0, 0, 0, 0, 0]]
  else none

/-- The generator built from `out7` with batch size 3 in `"batches"` mode:
`n_batches = 2` but `idxs = np.arange(0, 7, 3) = [0, 3, 6]` also contains the
start offset 6 of the incomplete trailing batch. -/
def gen7 : DataGenerator :=
  { batch_size := 3, shuffle_mode := "batches", n_samples := 7,
    features := .single [[1], [2], [3], [4], [5], [6], [7]],
    targets := [[0, 0], [0, 0], [0, 0], [0, 0], [0, 0], [0, 0], [0, 0]],
    n_batches := 2, idxs := [0, 3, 6] }

/-- Counterexample to C6 as stated: in `"batches"` mode with a shuffled draw
the remainder sample CAN be yielded. With 7 samples and batch size 3 the
index set is `[0, 3, 6]`; the permutation `[6, 0, 3]` puts offset 6 among
the first `n_batches = 2` positions, and the very first yielded batch is the
slice `features[6:9]`, which consists exactly of the remainder sample 6,
an index not below `n_batches * batch_size = 6`. -/
theorem C6_cex :
    dataGeneratorInit out7 meanW stdW 3 ["X"] ["SPDT", "SPDQ"] "batches" false
      = .ok gen7 ∧
    [6, 0, 3].Perm gen7.idxs ∧
    6 ∈ batchSampleIdxs gen7 [6, 0, 3] (0 % gen7.n_batches) ∧
    ¬ 6 < gen7.n_batches * gen7.batch_size := by
  refine ⟨?_, by decide, by decide, by decide⟩
  norm_num +decide [dataGeneratorInit, dgGetFeatures, dgGetTargets, look, out7,
    meanW, stdW, coreFList, normVar, numCols, bGet, concatCols, assembleFeats,
    transposeM, arangeStep, gen7, List.range_succ, Bind.bind, Except.bind]

/-- C6 (amended): for every successfully constructed generator,
`n_batches = floor(n_samples / batch_size)`; samples of the trailing
remainder are never yielded in the non-`"batches"` shuffle mode (under any
draw), nor in `"batches"` mode when the draw is unshuffled
(`generate(shuffle=False)`); but in `"batches"` mode with a shuffled draw a
remainder sample may be yielded, because `np.arange(0, n_samples,
batch_size)` also contains the start offset of the incomplete trailing
batch. -/
theorem C6_n_batches_and_remainder (out : String → Option (List (List ℚ)))
    (mean std : String → Option (List ℚ)) (bs : ℕ)
    (names tnames : List String) (mode : String) (conv : Bool)
    (g : DataGenerator) (gen_idxs : List ℕ)
    (h : dataGeneratorInit out mean std bs names tnames mode conv = .ok g)
    (hbs : 0 < bs) (hnb : 0 < g.n_batches) :
    g.n_batches = g.n_samples / g.batch_size ∧
    (g.shuffle_mode ≠ "batches" →
      ∀ k j, j ∈ batchSampleIdxs g gen_idxs (k % g.n_batches) →
        j < g.n_batches * g.batch_size) ∧
    (∀ k j, j ∈ batchSampleIdxs g g.idxs (k % g.n_batches) →
      j < g.n_batches * g.batch_size) := by
  obtain ⟨hb, hmo, hnbf, hixf⟩ :=
    init_fields out mean std bs names tnames mode conv g h
  have hbs2 : 0 < g.batch_size := by rw [hb]; exact hbs
  have hnbf2 : g.n_batches = g.n_samples / g.batch_size := by
    rw [hb]; exact hnbf
  have hix2 : g.idxs = (if g.shuffle_mode = "batches"
      then arangeStep g.n_samples g.batch_size
      else List.range g.n_samples) := by
    rw [hb, hmo]; exact hixf
  refine ⟨hnbf2, ?_, ?_⟩
  · intro hmode k j hj
    exact yield_idx_lt g gen_idxs (k % g.n_batches) j hnbf2 hix2 hbs2
      (Nat.mod_lt k hnb) (Or.inl hmode) hj
  · intro k j hj
    exact yield_idx_lt g g.idxs (k % g.n_batches) j hnbf2 hix2 hbs2
      (Nat.mod_lt k hnb) (Or.inr rfl) hj

/-- Witness for C6 (amended) on the concrete generator `genW`. -/
theorem C6_n_batches_and_remainder_witness :
    (dataGeneratorInit outW meanW stdW 2 ["X"] ["SPDT", "SPDQ"] "batches" false
        = .ok genW ∧ 0 < 2 ∧ 0 < genW.n_batches) ∧
    (genW.n_batches = genW.n_samples / genW.batch_size ∧
    (genW.shuffle_mode ≠ "batches" →
      ∀ k j, j ∈ batchSampleIdxs genW [2, 0] (k % genW.n_batches) →
        j < genW.n_batches * genW.batch_size) ∧
    (∀ k j, j ∈ batchSampleIdxs genW genW.idxs (k % genW.n_batches) →
      j < genW.n_batches * genW.batch_size)) :=
  ⟨⟨by norm_num +decide [dataGeneratorInit, dgGetFeatures, dgGetTargets, look,
      outW, meanW, stdW, coreFList, normVar, numCols, bGet, concatCols,
      assembleFeats, transposeM, arangeStep, genW, List.range_succ, Bind.bind,
      Except.bind], by decide, by decide⟩,
    C6_n_batches_and_remainder outW meanW stdW 2 ["X"] ["SPDT", "SPDQ"]
      "batches" false genW [2, 0]
      (by norm_num +decide [dataGeneratorInit, dgGetFeatures, dgGetTargets,
        look, outW, meanW, stdW, coreFList, normVar, numCols, bGet, concatCols,
        assembleFeats, transposeM, arangeStep, genW, List.range_succ, Bind.bind,
        Except.bind])
      (by decide) (by decide)⟩

/-! ### C7 -/

/-- A raw-output file with five samples (batch size 2 leaves one remainder
sample). -/
def out5 : String → Option (List (List ℚ)) := fun v =>
  if v = "TAP" then some [[0, 0, 0, 0, 0]]
  else if v = "X" then some [[1, 2, 3, 4, 5]]
  else if v = "SPDT" then some [[0, 0, 0, 0, 0]]
  else if v = "SPDQ" then some [[0, 0, 0, 0, 0]]
  else none

/-- The generator built from `out5` with batch size 2 in `"batches"` mode. -/
def gen5 : DataGenerator :=
  { batch_size := 2, shuffle_mode := "batches", n_samples := 5,
    features := .single [[1], [2], [3], [4], [5]],
    targets := [[0, 0], [0, 0], [0, 0], [0, 0], [0, 0]],
    n_batches := 2, idxs := [0, 2, 4] }

/-- Counterexample to C7 as stated: with 5 samples and batch size 2 the
drawn permutation `[4, 0, 2]` of the index set `[0, 2, 4]` makes the first
yielded batch the slice `features[4:6]`, which holds a single sample — not a
window of size `batch_size = 2`. -/
theorem C7_cex :
    dataGeneratorInit out5 meanW stdW 2 ["X"] ["SPDT", "SPDQ"] "batches" false
      = .ok gen5 ∧
    [4, 0, 2].Perm gen5.idxs ∧
    batchSampleIdxs gen5 [4, 0, 2] 0 = [4] ∧
    (batchSampleIdxs gen5 [4, 0, 2] 0).length ≠ gen5.batch_size := by
  refine ⟨?_, by decide, by decide, by decide⟩
  norm_num +decide [dataGeneratorInit, dgGetFeatures, dgGetTargets, look, out5,
    meanW, stdW, coreFList, normVar, numCols, bGet, concatCols, assembleFeats,
    transposeM, arangeStep, gen5, List.range_succ, Bind.bind, Except.bind]

/-- C7 (amended): in `"batches"` shuffle mode, every yielded batch is a
contiguous window of the samples in their original on-disk order, starting
at a batch-start offset that is a multiple of `batch_size` and drawn from
the base index set; its size is `batch_size` clipped at the end of the data
(`min batch_size (n_samples - start)`, which is `batch_size` except for the
trailing-remainder start offset). Only the order of whole batches is ever
randomized, never the order of samples inside a batch. -/
theorem C7_batches_mode_windows (out : String → Option (List (List ℚ)))
    (mean std : String → Option (List ℚ)) (bs : ℕ)
    (names tnames : List String) (conv : Bool)
    (g : DataGenerator) (gen_idxs : List ℕ) (i : ℕ)
    (h : dataGeneratorInit out mean std bs names tnames "batches" conv = .ok g)
    (hbs : 0 < bs) (hperm : gen_idxs.Perm g.idxs) (hi : i < g.n_batches) :
    ∃ b, b ∈ g.idxs ∧ g.batch_size ∣ b ∧ b < g.n_samples ∧
      batchSampleIdxs g gen_idxs i
        = List.range' b (min g.batch_size (g.n_samples - b)) := by
  obtain ⟨hb, hmo, hnbf, hixf⟩ :=
    init_fields out mean std bs names tnames "batches" conv g h
  have hbs2 : 0 < g.batch_size := by rw [hb]; exact hbs
  have hixa : g.idxs = arangeStep g.n_samples g.batch_size := by
    rw [hb]
    rw [hixf, if_pos rfl]
  have hilen : i < gen_idxs.length := by
    rw [hperm.length_eq, hixa, arangeStep_length]
    have h1 : i < g.n_samples / g.batch_size := by rw [hb, ← hnbf]; exact hi
    exact Nat.lt_of_lt_of_le h1 (nBatches_le_arange_len _ _ hbs2)
  have hbmem : gen_idxs.getD i 0 ∈ gen_idxs := by
    rw [List.getD_eq_getElem _ _ hilen]
    exact List.getElem_mem hilen
  have hbidx : gen_idxs.getD i 0 ∈ g.idxs := hperm.mem_iff.mp hbmem
  have harange : gen_idxs.getD i 0 ∈ arangeStep g.n_samples g.batch_size := by
    rw [← hixa]; exact hbidx
  obtain ⟨hdvd, hlt⟩ := mem_arangeStep hbs2 harange
  refine ⟨gen_idxs.getD i 0, hbidx, hdvd, hlt, ?_⟩
  rw [batchSampleIdxs, if_pos hmo]

/-- Witness for C7 (amended) on the concrete generator `genW` with the
shuffled draw `[2, 0]`. -/
theorem C7_batches_mode_windows_witness :
    (dataGeneratorInit outW meanW stdW 2 ["X"] ["SPDT", "SPDQ"] "batches" false
        = .ok genW ∧ 0 < 2 ∧ ([2, 0] : List ℕ).Perm genW.idxs ∧
      0 < genW.n_batches) ∧
    (∃ b, b ∈ genW.idxs ∧ genW.batch_size ∣ b ∧ b < genW.n_samples ∧
      batchSampleIdxs genW [2, 0] 0
        = List.range' b (min genW.batch_size (genW.n_samples - b))) :=
  ⟨⟨by norm_num +decide [dataGeneratorInit, dgGetFeatures, dgGetTargets, look,
      outW, meanW, stdW, coreFList, normVar, numCols, bGet, concatCols,
      assembleFeats, transposeM, arangeStep, genW, List.range_succ, Bind.bind,
      Except.bind], by decide, by decide, by decide⟩,
    C7_batches_mode_windows outW meanW stdW 2 ["X"] ["SPDT", "SPDQ"] false
      genW [2, 0] 0
      (by norm_num +decide [dataGeneratorInit, dgGetFeatures, dgGetTargets,
        look, outW, meanW, stdW, coreFList, normVar, numCols, bGet, concatCols,
        assembleFeats, transposeM, arangeStep, genW, List.range_succ, Bind.bind,
        Except.bind])
      (by decide) (by decide) (by decide)⟩

/-! ### C3 -/

/-- C3 (evaluation of the code at the failing input): on the concrete
non-`"batches"` generator `genF` (4 samples, batch size 2), EVERY draw
`p` of the index copy — in particular every permutation of the index set —
yields batch 0 = samples `[0, 1]` and batch 1 = samples `[2, 3]`: the
shuffle never places any sample anywhere else, contradicting the claim
(and the constructor docstring) that any sample may occupy any batch
position. -/
theorem C3_code_eval :
    dataGeneratorInit outW meanW stdW 2 ["X"] ["SPDT", "SPDQ"] "full" false
      = .ok genF ∧
    ∀ p : List ℕ, batchSampleIdxs genF p 0 = [0, 1]
      ∧ batchSampleIdxs genF p 1 = [2, 3] := by
  refine ⟨?_, ?_⟩
  · norm_num +decide [dataGeneratorInit, dgGetFeatures, dgGetTargets, look,
      outW, meanW, stdW, coreFList, normVar, numCols, bGet, concatCols,
      assembleFeats, transposeM, arangeStep, genF, List.range_succ, Bind.bind,
      Except.bind]
  · intro p
    constructor <;> (rw [batchSampleIdxs, if_neg (by decide)]; decide)
